import Mathlib

/-!
Shallow embedding of `src/buildcat/build.py`: the staleness-policy core of
the buildcat build tool.  A `Target` exposes the two queries the policies
use (`exists` and `timestamp`); an environment is an opaque type parameter.
Each policy variant's `outdated` method is translated directly from the
Python source, early `return`s becoming recursion that stops.
-/

namespace Buildcat

/-- A build target, as the policies see it: the two pure queries
`exists(environment)` and `timestamp(environment)` from
`buildcat.target.Target`.  `none` means the timestamp cannot be
determined. -/
structure Target (Env : Type) where
  exists' : Env → Bool
  timestamp : Env → Option Int

/-- `Always.outdated` (build.py lines 78-79): `return True`. -/
def Always.outdated {Env : Type} (_environment : Env)
    (_inputs _outputs : List (Target Env)) : Bool :=
  true

/-- `Never.outdated` (build.py lines 93-94): `return False`. -/
def Never.outdated {Env : Type} (_environment : Env)
    (_inputs _outputs : List (Target Env)) : Bool :=
  false

/-- `Nonexistent.outdated` (build.py lines 108-112): loop over `outputs`,
`return True` at the first node with `not node.exists(environment)`,
`return False` after the loop. -/
def Nonexistent.outdated {Env : Type} (environment : Env)
    (inputs : List (Target Env)) : List (Target Env) → Bool
  | [] => false
  | node :: rest =>
    if !(node.exists' environment) then true
    else Nonexistent.outdated environment inputs rest

/-- The inner loop of `Outdated.outdated` (build.py lines 132-138), for one
output `node` whose timestamp was read as `output_timestamp`.  Note the
source reads `node.timestamp(environment)` - the output's timestamp - on
line 133, not `inode.timestamp(environment)`; the translation preserves
that. -/
def Outdated.inner {Env : Type} (environment : Env) (node : Target Env)
    (output_timestamp : Int) : List (Target Env) → Bool
  | [] => false
  | _inode :: rest =>
    match node.timestamp environment with
    | none => true
    | some input_timestamp =>
      if input_timestamp > output_timestamp then true
      else Outdated.inner environment node output_timestamp rest

/-- `Outdated.outdated` (build.py lines 123-140): for each output, `return
True` if it does not exist or its timestamp is `None`; then the inner loop
over `inputs` (see `Outdated.inner`); `return False` after the loop. -/
def Outdated.outdated {Env : Type} (environment : Env)
    (inputs : List (Target Env)) : List (Target Env) → Bool
  | [] => false
  | node :: rest =>
    if !(node.exists' environment) then true
    else
      match node.timestamp environment with
      | none => true
      | some output_timestamp =>
        if Outdated.inner environment node output_timestamp inputs then true
        else Outdated.outdated environment inputs rest

/-- Written from the spec's words, for comparison with `Outdated.outdated`:
the function that returns `true` iff some output does not exist or has an
absent timestamp. -/
def specMissingOrUnknown {Env : Type} (environment : Env)
    (outputs : List (Target Env)) : Bool :=
  outputs.any fun t => !(t.exists' environment) || (t.timestamp environment).isNone

/-- Two targets give the same answers to both queries at an environment. -/
def AgreesAt {Env : Type} (environment : Env) (t₁ t₂ : Target Env) : Prop :=
  t₁.exists' environment = t₂.exists' environment ∧
    t₁.timestamp environment = t₂.timestamp environment

/-- A query made by a policy during one call: which method was invoked
(`exists` or `timestamp`), together with the position in `outputs` of the
target it was invoked on.  (With the source's inner-loop bug, every query
`Outdated.outdated` makes is to an output.) -/
inductive QKind where
  | qexists : QKind
  | qtimestamp : QKind
deriving DecidableEq

/-- `Nonexistent.outdated` instrumented with a log of the queries it makes,
in order; `i` is the position in the original `outputs` of the head of the
remaining list.  Same control flow as `Nonexistent.outdated`. -/
def Nonexistent.outdatedTrace {Env : Type} (environment : Env)
    (inputs : List (Target Env)) (i : Nat) :
    List (Target Env) → Bool × List (QKind × Nat)
  | [] => (false, [])
  | node :: rest =>
    if !(node.exists' environment) then (true, [(QKind.qexists, i)])
    else
      let p := Nonexistent.outdatedTrace environment inputs (i + 1) rest
      (p.1, (QKind.qexists, i) :: p.2)

/-- The inner loop of `Outdated.outdated` instrumented with a query log;
`i` is the position of the current output `node`.  Each iteration queries
`node.timestamp` (the source's line 133 bug), so every logged query is
`(qtimestamp, i)`. -/
def Outdated.innerTrace {Env : Type} (environment : Env) (node : Target Env)
    (output_timestamp : Int) (i : Nat) :
    List (Target Env) → Bool × List (QKind × Nat)
  | [] => (false, [])
  | _inode :: rest =>
    match node.timestamp environment with
    | none => (true, [(QKind.qtimestamp, i)])
    | some input_timestamp =>
      if input_timestamp > output_timestamp then (true, [(QKind.qtimestamp, i)])
      else
        let p := Outdated.innerTrace environment node output_timestamp i rest
        (p.1, (QKind.qtimestamp, i) :: p.2)

/-- `Outdated.outdated` instrumented with a log of the queries it makes, in
order; `i` is the position in the original `outputs` of the head of the
remaining list.  Same control flow as `Outdated.outdated`. -/
def Outdated.outdatedTrace {Env : Type} (environment : Env)
    (inputs : List (Target Env)) (i : Nat) :
    List (Target Env) → Bool × List (QKind × Nat)
  | [] => (false, [])
  | node :: rest =>
    if !(node.exists' environment) then (true, [(QKind.qexists, i)])
    else
      match node.timestamp environment with
      | none => (true, [(QKind.qexists, i), (QKind.qtimestamp, i)])
      | some output_timestamp =>
        let q := Outdated.innerTrace environment node output_timestamp i inputs
        if q.1 then (true, (QKind.qexists, i) :: (QKind.qtimestamp, i) :: q.2)
        else
          let p := Outdated.outdatedTrace environment inputs (i + 1) rest
          (p.1, (QKind.qexists, i) :: (QKind.qtimestamp, i) :: (q.2 ++ p.2))

/-- A file that exists with timestamp 100 (spec scenario 2's output A). -/
def fileA : Target Unit :=
  { exists' := fun _ => true, timestamp := fun _ => some 100 }

/-- A file that exists with timestamp 150 (spec scenario 2's input B). -/
def fileB : Target Unit :=
  { exists' := fun _ => true, timestamp := fun _ => some 150 }

/-- A file that exists but whose timestamp cannot be determined. -/
def fileNoTs : Target Unit :=
  { exists' := fun _ => true, timestamp := fun _ => none }

/-- A file that does not exist. -/
def fileMissing : Target Unit :=
  { exists' := fun _ => false, timestamp := fun _ => none }

/-! Helper lemmas about the embedded policies. -/

/-- When `node`'s timestamp is known, the inner loop of `Outdated.outdated`
never fires: it compares the output's timestamp with itself, and the
comparison is strict. -/
lemma inner_eq_false {Env : Type} (environment : Env) (node : Target Env)
    (T : Int) (h : node.timestamp environment = some T) :
    ∀ inputs : List (Target Env),
      Outdated.inner environment node T inputs = false := by
  intro inputs
  induction inputs with
  | nil => rfl
  | cons inode rest ih => simp [Outdated.inner, h, ih, lt_self_iff_false]

/-- `Outdated.outdated` computes exactly `specMissingOrUnknown`: the
inner-loop bug makes the inputs irrelevant. -/
lemma outdated_eq_spec {Env : Type} (environment : Env)
    (inputs : List (Target Env)) :
    ∀ outputs : List (Target Env),
      Outdated.outdated environment inputs outputs =
        specMissingOrUnknown environment outputs := by
  intro outputs
  induction outputs with
  | nil => rfl
  | cons node rest ih =>
    by_cases hex : node.exists' environment
    · cases hts : node.timestamp environment with
      | none => simp [Outdated.outdated, specMissingOrUnknown, hex, hts]
      | some T =>
        simp [Outdated.outdated, specMissingOrUnknown, hex, hts,
          inner_eq_false environment node T hts inputs]
        simpa [specMissingOrUnknown] using ih
    · simp [Outdated.outdated, specMissingOrUnknown, hex]

/-- `Nonexistent.outdated` is `List.any` of non-existence over the
outputs. -/
lemma nonexistent_eq_any {Env : Type} (environment : Env)
    (inputs : List (Target Env)) :
    ∀ outputs : List (Target Env),
      Nonexistent.outdated environment inputs outputs =
        outputs.any fun t => !(t.exists' environment) := by
  intro outputs
  induction outputs with
  | nil => rfl
  | cons node rest ih =>
    cases h : node.exists' environment <;>
      simp [Nonexistent.outdated, h, ih]

/-- `specMissingOrUnknown` respects pointwise agreement of query
answers. -/
lemma spec_congr {Env : Type} (environment : Env)
    {outputs₁ outputs₂ : List (Target Env)}
    (h : List.Forall₂ (AgreesAt environment) outputs₁ outputs₂) :
    specMissingOrUnknown environment outputs₁ =
      specMissingOrUnknown environment outputs₂ := by
  induction h with
  | nil => rfl
  | cons hab _ ih =>
    simp only [specMissingOrUnknown, List.any_cons] at *
    rw [hab.1, hab.2, ih]

/-- The instrumented `Nonexistent.outdatedTrace` returns the same boolean
as `Nonexistent.outdated`. -/
lemma nonexistentTrace_fst {Env : Type} (environment : Env)
    (inputs : List (Target Env)) :
    ∀ (outputs : List (Target Env)) (i : Nat),
      (Nonexistent.outdatedTrace environment inputs i outputs).1 =
        Nonexistent.outdated environment inputs outputs := by
  intro outputs
  induction outputs with
  | nil => intro i; rfl
  | cons node rest ih =>
    intro i
    by_cases h : node.exists' environment <;>
      simp [Nonexistent.outdatedTrace, Nonexistent.outdated, h, ih]

/-- The instrumented inner loop returns the same boolean as
`Outdated.inner`. -/
lemma innerTrace_fst {Env : Type} (environment : Env) (node : Target Env)
    (T : Int) (i : Nat) :
    ∀ inputs : List (Target Env),
      (Outdated.innerTrace environment node T i inputs).1 =
        Outdated.inner environment node T inputs := by
  intro inputs
  induction inputs with
  | nil => rfl
  | cons inode rest ih =>
    cases hts : node.timestamp environment with
    | none => simp [Outdated.innerTrace, Outdated.inner, hts]
    | some S =>
      by_cases hgt : S > T <;>
        simp [Outdated.innerTrace, Outdated.inner, hts, hgt, ih]

/-- The instrumented `Outdated.outdatedTrace` returns the same boolean as
`Outdated.outdated`. -/
lemma outdatedTrace_fst {Env : Type} (environment : Env)
    (inputs : List (Target Env)) :
    ∀ (outputs : List (Target Env)) (i : Nat),
      (Outdated.outdatedTrace environment inputs i outputs).1 =
        Outdated.outdated environment inputs outputs := by
  intro outputs
  induction outputs with
  | nil => intro i; rfl
  | cons node rest ih =>
    intro i
    by_cases hex : node.exists' environment
    · cases hts : node.timestamp environment with
      | none => simp [Outdated.outdatedTrace, Outdated.outdated, hex, hts]
      | some T =>
        by_cases hin : Outdated.inner environment node T inputs <;>
          simp [Outdated.outdatedTrace, Outdated.outdated, hex, hts, hin,
            innerTrace_fst, ih]
    · simp [Outdated.outdatedTrace, Outdated.outdated, hex]

/-- Every query logged by the instrumented inner loop is a `timestamp`
query on the current output, at position `i`. -/
lemma innerTrace_indices {Env : Type} (environment : Env)
    (node : Target Env) (T : Int) (i : Nat) :
    ∀ inputs : List (Target Env),
      ∀ q ∈ (Outdated.innerTrace environment node T i inputs).2,
        q = (QKind.qtimestamp, i) := by
  intro inputs
  induction inputs with
  | nil => intro q hq; simp [Outdated.innerTrace] at hq
  | cons inode rest ih =>
    intro q hq
    cases hts : node.timestamp environment with
    | none =>
      simp [Outdated.innerTrace, hts] at hq
      simp [hq]
    | some S =>
      by_cases hgt : S > T
      · simp [Outdated.innerTrace, hts, hgt] at hq
        simp [hq]
      · simp [Outdated.innerTrace, hts, hgt] at hq
        rcases hq with hq | hq
        · simp [hq]
        · exact ih q hq

/-- A list of queries all made at the same position is trivially in
nondecreasing position order. -/
lemma pairwise_const_snd (i : Nat) :
    ∀ l : List (QKind × Nat), (∀ q ∈ l, q = (QKind.qtimestamp, i)) →
      List.Pairwise (fun a b : QKind × Nat => a.2 ≤ b.2) l := by
  intro l
  induction l with
  | nil => intro _; constructor
  | cons a t ih =>
    intro h
    constructor
    · intro b hb
      rw [h a (List.mem_cons_self a t), h b (List.mem_cons_of_mem a hb)]
    · exact ih fun q hq => h q (List.mem_cons_of_mem a hq)

/-- Positions in a `Nonexistent.outdatedTrace` log are at least the
starting position and appear in nondecreasing order. -/
lemma nonexistentTrace_bounds {Env : Type} (environment : Env)
    (inputs : List (Target Env)) :
    ∀ (outputs : List (Target Env)) (i : Nat),
      (∀ q ∈ (Nonexistent.outdatedTrace environment inputs i outputs).2,
        i ≤ q.2) ∧
      List.Pairwise (fun a b : QKind × Nat => a.2 ≤ b.2)
        (Nonexistent.outdatedTrace environment inputs i outputs).2 := by
  intro outputs
  induction outputs with
  | nil => intro i; simp [Nonexistent.outdatedTrace]
  | cons node rest ih =>
    intro i
    by_cases h : node.exists' environment
    · obtain ⟨ihb, ihp⟩ := ih (i + 1)
      constructor
      · intro q hq
        simp [Nonexistent.outdatedTrace, h] at hq
        rcases hq with hq | hq
        · simp [hq]
        · exact Nat.le_trans (Nat.le_succ i) (ihb q hq)
      · simp only [Nonexistent.outdatedTrace, h, Bool.not_true,
          Bool.false_eq_true, if_false, List.pairwise_cons]
        exact ⟨fun q hq => Nat.le_trans (Nat.le_succ i) (ihb q hq), ihp⟩
    · simp [Nonexistent.outdatedTrace, h]

/-- Positions in an `Outdated.outdatedTrace` log are at least the starting
position and appear in nondecreasing order. -/
lemma outdatedTrace_bounds {Env : Type} (environment : Env)
    (inputs : List (Target Env)) :
    ∀ (outputs : List (Target Env)) (i : Nat),
      (∀ q ∈ (Outdated.outdatedTrace environment inputs i outputs).2,
        i ≤ q.2) ∧
      List.Pairwise (fun a b : QKind × Nat => a.2 ≤ b.2)
        (Outdated.outdatedTrace environment inputs i outputs).2 := by
  intro outputs
  induction outputs with
  | nil => intro i; simp [Outdated.outdatedTrace]
  | cons node rest ih =>
    intro i
    by_cases hex : node.exists' environment
    · cases hts : node.timestamp environment with
      | none => simp [Outdated.outdatedTrace, hex, hts]
      | some T =>
        obtain ⟨ihb, ihp⟩ := ih (i + 1)
        have hidx := innerTrace_indices environment node T i inputs
        by_cases hq1 : (Outdated.innerTrace environment node T i inputs).1
        · constructor
          · intro q hq
            simp [Outdated.outdatedTrace, hex, hts, hq1] at hq
            rcases hq with hq | hq | hq
            · simp [hq]
            · simp [hq]
            · rw [hidx q hq]
          · simp only [Outdated.outdatedTrace, hex, hts, hq1,
              Bool.not_true, Bool.false_eq_true, if_false, if_true,
              List.pairwise_cons]
            refine ⟨?_, ?_, pairwise_const_snd i _ hidx⟩
            · intro q hq
              rcases List.mem_cons.mp hq with hq | hq
              · simp [hq]
              · rw [hidx q hq]
            · intro q hq
              rw [hidx q hq]
        · constructor
          · intro q hq
            simp [Outdated.outdatedTrace, hex, hts, hq1] at hq
            rcases hq with hq | hq | hq | hq
            · simp [hq]
            · simp [hq]
            · rw [hidx q hq]
            · exact Nat.le_trans (Nat.le_succ i) (ihb q hq)
          · simp only [Outdated.outdatedTrace, hex, hts, hq1,
              Bool.not_true, Bool.false_eq_true, if_false,
              List.pairwise_cons, List.pairwise_append, List.mem_append]
            refine ⟨?_, ?_, ⟨pairwise_const_snd i _ hidx, ihp, ?_⟩⟩
            · intro q hq
              rcases List.mem_cons.mp hq with hq | hq
              · simp [hq]
              · rcases List.mem_append.mp hq with hq | hq
                · rw [hidx q hq]
                · exact Nat.le_trans (Nat.le_succ i) (ihb q hq)
            · intro q hq
              rcases hq with hq | hq
              · rw [hidx q hq]
              · exact Nat.le_trans (Nat.le_succ i) (ihb q hq)
            · intro a ha b hb
              rw [hidx a ha]
              exact Nat.le_trans (Nat.le_succ i) (ihb b hb)
    · simp [Outdated.outdatedTrace, hex]

/-- If position `j` holds the first non-existent output, the instrumented
`Nonexistent.outdatedTrace` returns `true` and never queries a target past
position `j`. -/
lemma nonexistentTrace_first_stale {Env : Type} (environment : Env)
    (inputs : List (Target Env)) :
    ∀ (outputs : List (Target Env)) (i j : Nat) (hj : j < outputs.length),
      (outputs.get ⟨j, hj⟩).exists' environment = false →
      (∀ k (hk : k < j),
        (outputs.get ⟨k, Nat.lt_trans hk hj⟩).exists' environment = true) →
      (Nonexistent.outdatedTrace environment inputs i outputs).1 = true ∧
        ∀ q ∈ (Nonexistent.outdatedTrace environment inputs i outputs).2,
          q.2 ≤ i + j := by
  intro outputs
  induction outputs with
  | nil => intro i j hj; exact absurd hj (Nat.not_lt_zero j)
  | cons node rest ih =>
    intro i j hj hstale hfirst
    cases j with
    | zero =>
      have hnode : node.exists' environment = false := hstale
      simp [Nonexistent.outdatedTrace, hnode]
    | succ j' =>
      have hnode : node.exists' environment = true := hfirst 0 (Nat.succ_pos j')
      have hj' : j' < rest.length := Nat.lt_of_succ_lt_succ hj
      have hstale' : (rest.get ⟨j', hj'⟩).exists' environment = false := hstale
      have hfirst' : ∀ k (hk : k < j'),
          (rest.get ⟨k, Nat.lt_trans hk hj'⟩).exists' environment = true :=
        fun k hk => hfirst (k + 1) (Nat.succ_lt_succ hk)
      obtain ⟨h1, h2⟩ := ih (i + 1) j' hj' hstale' hfirst'
      constructor
      · simp [Nonexistent.outdatedTrace, hnode, h1]
      · intro q hq
        simp [Nonexistent.outdatedTrace, hnode] at hq
        rcases hq with hq | hq
        · simp [hq]
        · have := h2 q hq
          omega

/-- If position `j` holds the first output that does not exist or has an
absent timestamp, the instrumented `Outdated.outdatedTrace` returns `true`
and never queries a target past position `j`. -/
lemma outdatedTrace_first_stale {Env : Type} (environment : Env)
    (inputs : List (Target Env)) :
    ∀ (outputs : List (Target Env)) (i j : Nat) (hj : j < outputs.length),
      ((outputs.get ⟨j, hj⟩).exists' environment = false ∨
        (outputs.get ⟨j, hj⟩).timestamp environment = none) →
      (∀ k (hk : k < j),
        (outputs.get ⟨k, Nat.lt_trans hk hj⟩).exists' environment = true ∧
          (outputs.get ⟨k, Nat.lt_trans hk hj⟩).timestamp environment ≠ none) →
      (Outdated.outdatedTrace environment inputs i outputs).1 = true ∧
        ∀ q ∈ (Outdated.outdatedTrace environment inputs i outputs).2,
          q.2 ≤ i + j := by
  intro outputs
  induction outputs with
  | nil => intro i j hj; exact absurd hj (Nat.not_lt_zero j)
  | cons node rest ih =>
    intro i j hj hstale hfirst
    cases j with
    | zero =>
      by_cases hex : node.exists' environment
      · have hts : node.timestamp environment = none := by
          rcases hstale with h | h
          · exact absurd h (by simp [hex])
          · exact h
        simp [Outdated.outdatedTrace, hex, hts]
      · simp [Outdated.outdatedTrace, hex]
    | succ j' =>
      obtain ⟨hex, htsne⟩ := hfirst 0 (Nat.succ_pos j')
      obtain ⟨T, hts⟩ := Option.ne_none_iff_exists'.mp htsne
      have hexn : node.exists' environment = true := hex
      have htsn : node.timestamp environment = some T := hts
      have hq1 : (Outdated.innerTrace environment node T i inputs).1 = false := by
        rw [innerTrace_fst]
        exact inner_eq_false environment node T htsn inputs
      have hj' : j' < rest.length := Nat.lt_of_succ_lt_succ hj
      have hstale' : (rest.get ⟨j', hj'⟩).exists' environment = false ∨
          (rest.get ⟨j', hj'⟩).timestamp environment = none := hstale
      have hfirst' : ∀ k (hk : k < j'),
          (rest.get ⟨k, Nat.lt_trans hk hj'⟩).exists' environment = true ∧
            (rest.get ⟨k, Nat.lt_trans hk hj'⟩).timestamp environment ≠ none :=
        fun k hk => hfirst (k + 1) (Nat.succ_lt_succ hk)
      obtain ⟨h1, h2⟩ := ih (i + 1) j' hj' hstale' hfirst'
      have hidx := innerTrace_indices environment node T i inputs
      constructor
      · simp [Outdated.outdatedTrace, hexn, htsn, hq1, h1]
      · intro q hq
        simp [Outdated.outdatedTrace, hexn, htsn, hq1] at hq
        rcases hq with hq | hq | hq | hq
        · simp [hq]
        · simp [hq]
        · have := hidx q hq
          simp [this]
        · have := h2 q hq
          omega

/-! The claims. -/

/-- Claim C1: the claim says that with every output and input existing and
carrying a known timestamp, `Outdated.outdated` returns `true` iff some
input's timestamp is strictly greater than some output's.  The code does
not: at spec scenario 2 (output with timestamp 100, input with timestamp
150) it returns `false`, because line 133 of build.py reads the output's
timestamp where the input's was intended.  This theorem records the code's
behaviour at that failing input. -/
theorem C1_outdated_ignores_newer_input :
    Outdated.outdated () [fileB] [fileA] = false := by
  rfl

/-- Claim C2: the claim says that an absent input timestamp forces
`Outdated.outdated` to `true`.  The code does not: with an existing output
of timestamp 100 and an input whose timestamp is absent, it returns
`false`, because the inner loop re-reads the output's timestamp and never
sees the input's `None`.  This theorem records the code's behaviour at
that failing input. -/
theorem C2_outdated_ignores_absent_input_timestamp :
    Outdated.outdated () [fileNoTs] [fileA] = false := by
  rfl

/-- Claim C3: because the inner loop re-reads the output's timestamp,
`Outdated.outdated` is extensionally equal to the function returning
`true` iff some output does not exist or has an absent timestamp, and its
result is independent of the inputs sequence. -/
theorem C3_outdated_equals_missing_or_unknown :
    ∀ (Env : Type) (environment : Env) (inputs outputs : List (Target Env)),
      Outdated.outdated environment inputs outputs =
        specMissingOrUnknown environment outputs ∧
      ∀ inputs' : List (Target Env),
        Outdated.outdated environment inputs outputs =
          Outdated.outdated environment inputs' outputs := by
  intro Env environment inputs outputs
  refine ⟨outdated_eq_spec environment inputs outputs, fun inputs' => ?_⟩
  rw [outdated_eq_spec, outdated_eq_spec]

/-- Claim C4: `Nonexistent.outdated` returns `true` iff some output does
not exist; the result does not depend on the inputs sequence, nor on any
timestamp (outputs with the same existence answers give the same
result). -/
theorem C4_nonexistent_missing_only :
    ∀ (Env : Type) (environment : Env) (inputs outputs : List (Target Env)),
      (Nonexistent.outdated environment inputs outputs = true ↔
        ∃ t ∈ outputs, t.exists' environment = false) ∧
      (∀ inputs' : List (Target Env),
        Nonexistent.outdated environment inputs outputs =
          Nonexistent.outdated environment inputs' outputs) ∧
      (∀ outputs' : List (Target Env),
        List.Forall₂
          (fun a b : Target Env =>
            a.exists' environment = b.exists' environment) outputs outputs' →
        Nonexistent.outdated environment inputs outputs =
          Nonexistent.outdated environment inputs outputs') := by
  intro Env environment inputs outputs
  refine ⟨?_, ?_, ?_⟩
  · rw [nonexistent_eq_any]
    simp [List.any_eq_true, Bool.not_eq_true']
  · intro inputs'
    rw [nonexistent_eq_any, nonexistent_eq_any]
  · intro outputs' h
    rw [nonexistent_eq_any, nonexistent_eq_any]
    induction h with
    | nil => rfl
    | cons hab _ ih =>
      simp only [List.any_cons]
      rw [hab, ih]

/-- Witness for C4 at a concrete input: a single missing output. -/
theorem C4_nonexistent_missing_only_witness :
    (Nonexistent.outdated () [] [fileMissing] = true ↔
      ∃ t ∈ [fileMissing], t.exists' () = false) ∧
    Nonexistent.outdated () [] [fileMissing] =
      Nonexistent.outdated () [fileB] [fileMissing] ∧
    Nonexistent.outdated () [] [fileMissing] =
      Nonexistent.outdated () [] [fileMissing] :=
  ⟨(C4_nonexistent_missing_only Unit () [] [fileMissing]).1,
    (C4_nonexistent_missing_only Unit () [] [fileMissing]).2.1 [fileB],
    (C4_nonexistent_missing_only Unit () [] [fileMissing]).2.2 [fileMissing]
      (List.Forall₂.cons rfl List.Forall₂.nil)⟩

/-- Claim C5: with `inputs = []`, `Outdated.outdated` depends only on the
outputs' existence and timestamp presence: it is `true` iff some output
does not exist or has an absent timestamp. -/
theorem C5_outdated_empty_inputs :
    ∀ (Env : Type) (environment : Env) (outputs : List (Target Env)),
      Outdated.outdated environment [] outputs =
        specMissingOrUnknown environment outputs ∧
      (Outdated.outdated environment [] outputs = true ↔
        ∃ t ∈ outputs, t.exists' environment = false ∨
          t.timestamp environment = none) := by
  intro Env environment outputs
  refine ⟨outdated_eq_spec environment [] outputs, ?_⟩
  rw [outdated_eq_spec]
  simp [specMissingOrUnknown, List.any_eq_true, Bool.or_eq_true,
    Bool.not_eq_true', Option.isNone_iff_eq_none]

/-- Claim C6: with `outputs = []`, every variant returns a value (the
embedding is total, so no error is possible), `Always` returns `true`,
`Never`, `Nonexistent` and `Outdated` return `false`. -/
theorem C6_empty_outputs_safe :
    ∀ (Env : Type) (environment : Env) (inputs : List (Target Env)),
      Always.outdated environment inputs [] = true ∧
      Never.outdated environment inputs [] = false ∧
      Nonexistent.outdated environment inputs [] = false ∧
      Outdated.outdated environment inputs [] = false :=
  fun _ _ _ => ⟨rfl, rfl, rfl, rfl⟩

/-- Claim C7: `Always.outdated` returns `true` for all arguments. -/
theorem C7_always_outdated_true :
    ∀ (Env : Type) (environment : Env) (inputs outputs : List (Target Env)),
      Always.outdated environment inputs outputs = true :=
  fun _ _ _ _ => rfl

/-- Claim C8: `Never.outdated` returns `false` for all arguments. -/
theorem C8_never_outdated_false :
    ∀ (Env : Type) (environment : Env) (inputs outputs : List (Target Env)),
      Never.outdated environment inputs outputs = false :=
  fun _ _ _ _ => rfl

/-- Claim C9: every variant's `outdated` is a deterministic, stateless
function of its arguments: two calls whose targets give the same
`exists`/`timestamp` answers return the same result (the embedding is a
pure function, mirroring the source's absence of any mutation). -/
theorem C9_policies_pure :
    ∀ (Env : Type) (environment : Env)
      (inputs₁ inputs₂ outputs₁ outputs₂ : List (Target Env)),
      List.Forall₂ (AgreesAt environment) inputs₁ inputs₂ →
      List.Forall₂ (AgreesAt environment) outputs₁ outputs₂ →
      Always.outdated environment inputs₁ outputs₁ =
        Always.outdated environment inputs₂ outputs₂ ∧
      Never.outdated environment inputs₁ outputs₁ =
        Never.outdated environment inputs₂ outputs₂ ∧
      Nonexistent.outdated environment inputs₁ outputs₁ =
        Nonexistent.outdated environment inputs₂ outputs₂ ∧
      Outdated.outdated environment inputs₁ outputs₁ =
        Outdated.outdated environment inputs₂ outputs₂ := by
  intro Env environment inputs₁ inputs₂ outputs₁ outputs₂ hi ho
  refine ⟨rfl, rfl, ?_, ?_⟩
  · rw [nonexistent_eq_any, nonexistent_eq_any]
    induction ho with
    | nil => rfl
    | cons hab _ ih =>
      simp only [List.any_cons]
      rw [hab.1, ih]
  · rw [outdated_eq_spec, outdated_eq_spec, spec_congr environment ho]

/-- Witness for C9 at a concrete input: two calls at identical targets. -/
theorem C9_policies_pure_witness :
    Always.outdated () [fileB] [fileA] = Always.outdated () [fileB] [fileA] ∧
    Never.outdated () [fileB] [fileA] = Never.outdated () [fileB] [fileA] ∧
    Nonexistent.outdated () [fileB] [fileA] =
      Nonexistent.outdated () [fileB] [fileA] ∧
    Outdated.outdated () [fileB] [fileA] =
      Outdated.outdated () [fileB] [fileA] :=
  C9_policies_pure Unit () [fileB] [fileB] [fileA] [fileA]
    (List.Forall₂.cons ⟨rfl, rfl⟩ List.Forall₂.nil)
    (List.Forall₂.cons ⟨rfl, rfl⟩ List.Forall₂.nil)

/-- Claim C10: `Nonexistent.outdated` and `Outdated.outdated` evaluate
outputs left to right and short-circuit: when position `j` holds the first
stale output (non-existent for `Nonexistent`; non-existent or with absent
timestamp for `Outdated`), the result is `true`, the instrumented query
log agrees with the plain function, every query is at a position at most
`j`, and the queried positions are in nondecreasing order. -/
theorem C10_short_circuit :
    (∀ (Env : Type) (environment : Env) (inputs outputs : List (Target Env))
      (j : Nat) (hj : j < outputs.length),
      (outputs.get ⟨j, hj⟩).exists' environment = false →
      (∀ k (hk : k < j),
        (outputs.get ⟨k, Nat.lt_trans hk hj⟩).exists' environment = true) →
      Nonexistent.outdated environment inputs outputs = true ∧
      (Nonexistent.outdatedTrace environment inputs 0 outputs).1 =
        Nonexistent.outdated environment inputs outputs ∧
      (∀ q ∈ (Nonexistent.outdatedTrace environment inputs 0 outputs).2,
        q.2 ≤ j) ∧
      List.Pairwise (fun a b : QKind × Nat => a.2 ≤ b.2)
        (Nonexistent.outdatedTrace environment inputs 0 outputs).2) ∧
    (∀ (Env : Type) (environment : Env) (inputs outputs : List (Target Env))
      (j : Nat) (hj : j < outputs.length),
      ((outputs.get ⟨j, hj⟩).exists' environment = false ∨
        (outputs.get ⟨j, hj⟩).timestamp environment = none) →
      (∀ k (hk : k < j),
        (outputs.get ⟨k, Nat.lt_trans hk hj⟩).exists' environment = true ∧
          (outputs.get ⟨k, Nat.lt_trans hk hj⟩).timestamp environment ≠ none) →
      Outdated.outdated environment inputs outputs = true ∧
      (Outdated.outdatedTrace environment inputs 0 outputs).1 =
        Outdated.outdated environment inputs outputs ∧
      (∀ q ∈ (Outdated.outdatedTrace environment inputs 0 outputs).2,
        q.2 ≤ j) ∧
      List.Pairwise (fun a b : QKind × Nat => a.2 ≤ b.2)
        (Outdated.outdatedTrace environment inputs 0 outputs).2) := by
  constructor
  · intro Env environment inputs outputs j hj hstale hfirst
    obtain ⟨h1, h2⟩ :=
      nonexistentTrace_first_stale environment inputs outputs 0 j hj hstale hfirst
    refine ⟨?_, nonexistentTrace_fst environment inputs outputs 0, ?_,
      (nonexistentTrace_bounds environment inputs outputs 0).2⟩
    · rw [← nonexistentTrace_fst environment inputs outputs 0]
      exact h1
    · intro q hq
      have := h2 q hq
      omega
  · intro Env environment inputs outputs j hj hstale hfirst
    obtain ⟨h1, h2⟩ :=
      outdatedTrace_first_stale environment inputs outputs 0 j hj hstale hfirst
    refine ⟨?_, outdatedTrace_fst environment inputs outputs 0, ?_,
      (outdatedTrace_bounds environment inputs outputs 0).2⟩
    · rw [← outdatedTrace_fst environment inputs outputs 0]
      exact h1
    · intro q hq
      have := h2 q hq
      omega

/-- Witness for C10 at a concrete input: one missing output, one input. -/
theorem C10_short_circuit_witness :
    (Nonexistent.outdated () [fileB] [fileMissing] = true ∧
      (Nonexistent.outdatedTrace () [fileB] 0 [fileMissing]).1 =
        Nonexistent.outdated () [fileB] [fileMissing] ∧
      (∀ q ∈ (Nonexistent.outdatedTrace () [fileB] 0 [fileMissing]).2,
        q.2 ≤ 0) ∧
      List.Pairwise (fun a b : QKind × Nat => a.2 ≤ b.2)
        (Nonexistent.outdatedTrace () [fileB] 0 [fileMissing]).2) ∧
    (Outdated.outdated () [fileB] [fileMissing] = true ∧
      (Outdated.outdatedTrace () [fileB] 0 [fileMissing]).1 =
        Outdated.outdated () [fileB] [fileMissing] ∧
      (∀ q ∈ (Outdated.outdatedTrace () [fileB] 0 [fileMissing]).2,
        q.2 ≤ 0) ∧
      List.Pairwise (fun a b : QKind × Nat => a.2 ≤ b.2)
        (Outdated.outdatedTrace () [fileB] 0 [fileMissing]).2) :=
  ⟨C10_short_circuit.1 Unit () [fileB] [fileMissing] 0 (by decide) rfl
      (fun k hk => absurd hk (Nat.not_lt_zero k)),
    C10_short_circuit.2 Unit () [fileB] [fileMissing] 0 (by decide) (Or.inl rfl)
      (fun k hk => absurd hk (Nat.not_lt_zero k))⟩

end Buildcat
